import Mathlib

/-!
Verification of the tiered semantic memory engine of the `aiagents`
repository against its specification.

The development shallowly embeds the Go sources:
* `internal/context/context.go` — `MemoryEntry`, `EasyMemory`;
* `internal/context/inmemory/inmemory.go` — `InMemoryContextStorage`
  (`Remember`, `Forget`, `SetContext`, `GetContext`, `MemoryExists`,
  `SearchMemories`, `FilterRelatedMemories`, `GetMemories`);
* the HNSW searcher (`HNSWSimilaritySearcher` with `IndexMemory`,
  `Search`, `cosineSimilarity`);
* `internal/agent/agent.go` — `Think`, `BuildContext`, `RefreshMemories`.

Go `float64`/`float32` arithmetic is modelled over `ℝ`; Go maps are
modelled as association lists with Go-map key semantics (at most one
binding per key on every reachable state); `uuid.New()` and `time.Now()`
are modelled by a per-store counter and an explicit `now` argument.
Network collaborators (the embedding provider and the LLM-backed
cognition operations) are pure oracle parameters returning `Except`.
-/

set_option maxHeartbeats 1000000

abbrev Vec := List ℝ

/-- `context.MemoryEntry` (internal/context/context.go). `Timestamp` is
modelled as a `Nat` tick. -/
structure MemoryEntry where
  id : String
  category : String
  content : String
  timestamp : Nat
  importance : Int
  embedding : Vec

/-- `context.EasyMemory` (internal/context/context.go): an uncommitted
candidate memory. -/
structure EasyMemory where
  category : String
  content : String
  importance : Int

/-- Errors surfaced by store / index operations.  The Go code returns
`fmt.Errorf` values; we keep the distinguishing shape. -/
inductive MemErr where
  | notFound (id : String)
  | embedFail (msg : String)
  | dimMismatch
deriving DecidableEq

/-- `embedding.EmbeddingProvider.ComputeEmbedding(text) (vector, error)`. -/
abbrev EmbeddingProvider := String → Except String Vec

/-- Association-list lookup, modelling Go map indexing `m[k]`. -/
def lookupAssoc (id : String) : List (String × α) → Option α
  | [] => none
  | (k, v) :: rest => if k = id then some v else lookupAssoc id rest

/-- Association-list insert-or-replace, modelling Go map assignment
`m[k] = v`. -/
def insertAssoc (id : String) (v : α) : List (String × α) → List (String × α)
  | [] => [(id, v)]
  | (k, w) :: rest =>
      if k = id then (id, v) :: rest else (k, w) :: insertAssoc id v rest

/-- Association-list erase, modelling Go `delete(m, k)`. -/
def eraseAssoc (id : String) : List (String × α) → List (String × α)
  | [] => []
  | (k, v) :: rest =>
      if k = id then eraseAssoc id rest else (k, v) :: eraseAssoc id rest

/-- Number of bindings for a key; on reachable (map-like) states this is
0 or 1. -/
def countKey (id : String) : List (String × α) → Nat
  | [] => 0
  | (k, _) :: rest => (if k = id then 1 else 0) + countKey id rest

/-- Model of `uuid.New().String()`: the n-th uuid drawn by a store.  Any
injective enumeration is a faithful model of the uniqueness contract of
the uuid package. -/
def uuidGen (n : Nat) : String := String.mk (List.replicate (n + 1) 'u')

/-- State of `InMemoryContextStorage` (internal/context/inmemory/inmemory.go).
`uuidCounter`, `usedIds` and `rememberCalls` are ghost fields: the uuid
source position, the ids handed out by `Remember` calls so far, and the
number of `Remember` invocations. -/
structure InMemoryContextStorage where
  hotContext : String
  coldStorage : List (String × MemoryEntry)
  uuidCounter : Nat
  usedIds : List String
  rememberCalls : Nat

/-- State of the HNSW similarity searcher: the graph nodes (key and
vector) and the id-to-entry map, with the fixed embedding dimension. -/
structure HNSWSimilaritySearcher where
  nodes : List (String × Vec)
  memMap : List (String × MemoryEntry)
  dim : Nat

/-- The store together with its injected similarity searcher. -/
structure Sys where
  store : InMemoryContextStorage
  sim : HNSWSimilaritySearcher

/-- `NewInMemoryContextStorage` with a fresh searcher of dimension `d`. -/
def initSys (d : Nat) : Sys :=
  { store := { hotContext := "", coldStorage := [], uuidCounter := 0,
               usedIds := [], rememberCalls := 0 },
    sim := { nodes := [], memMap := [], dim := d } }

/-- `GetContext` (inmemory.go). -/
def GetContext (s : Sys) : String := s.store.hotContext

/-- `SetContext` (inmemory.go); the Go method always returns `nil`. -/
def SetContext (t : String) (s : Sys) : Sys :=
  { s with store := { s.store with hotContext := t } }

/-- `MemoryExists` (inmemory.go). -/
def MemoryExists (id : String) (s : Sys) : Bool :=
  (lookupAssoc id s.store.coldStorage).isSome

/-- `GetMemories` (inmemory.go). -/
def GetMemories (s : Sys) : List MemoryEntry :=
  s.store.coldStorage.map Prod.snd

/-- `HNSWSimilaritySearcher.IndexMemory`: rejects a dimension mismatch,
otherwise adds/replaces the graph node and records the entry in the
id-to-entry map. -/
def IndexMemory (mem : MemoryEntry) (h : HNSWSimilaritySearcher) :
    Except MemErr HNSWSimilaritySearcher :=
  if mem.embedding.length ≠ h.dim then .error .dimMismatch
  else .ok { h with nodes := insertAssoc mem.id mem.embedding h.nodes,
                    memMap := insertAssoc mem.id mem h.memMap }

/-- `Remember` (inmemory.go).  The Go code builds the entry (drawing the
uuid and timestamp) first, then computes the embedding, then inserts
into cold storage, and only then indexes; an indexing failure therefore
leaves the entry in the cold map. -/
def Remember (prov : EmbeddingProvider) (now : Nat) (easyMem : EasyMemory)
    (s : Sys) : Except MemErr Unit × Sys :=
  let id := uuidGen s.store.uuidCounter
  let st0 := { s.store with
                uuidCounter := s.store.uuidCounter + 1,
                usedIds := s.store.usedIds ++ [id],
                rememberCalls := s.store.rememberCalls + 1 }
  match prov easyMem.content with
  | .error e => (.error (.embedFail e), { s with store := st0 })
  | .ok emb =>
      let entry : MemoryEntry :=
        { id := id, category := easyMem.category, content := easyMem.content,
          timestamp := now, importance := easyMem.importance, embedding := emb }
      let st1 := { st0 with coldStorage := insertAssoc id entry st0.coldStorage }
      match IndexMemory entry s.sim with
      | .error e => (.error e, { store := st1, sim := s.sim })
      | .ok sim2 => (.ok (), { store := st1, sim := sim2 })

/-- `Forget` (inmemory.go): removes the record from the cold map only;
the similarity index is not touched. -/
def Forget (id : String) (s : Sys) : Except MemErr Unit × Sys :=
  match lookupAssoc id s.store.coldStorage with
  | none => (.error (.notFound id), s)
  | some _ =>
      (.ok (), { s with store :=
        { s.store with coldStorage := eraseAssoc id s.store.coldStorage } })

/-- `cosineSimilarity`'s accumulation loop: the dot product of two equal
length vectors (the Go loop runs over paired indices). -/
def dotProd (a b : Vec) : ℝ := (List.zipWith (fun x y => x * y) a b).sum

/-- `cosineSimilarity` (hnsw searcher file): 0 on length mismatch or a
zero norm, otherwise `dot / (sqrt normA * sqrt normB)`. -/
noncomputable def cosineSimilarity (a b : Vec) : ℝ :=
  if a.length ≠ b.length then 0
  else
    if dotProd a a = 0 ∨ dotProd b b = 0 then 0
    else dotProd a b / (Real.sqrt (dotProd a a) * Real.sqrt (dotProd b b))

/-- The cosine distance used by the external `coder/hnsw` graph (its
default metric): `1 - cosine similarity`. -/
noncomputable def cosineDistance (a b : Vec) : ℝ := 1 - cosineSimilarity a b

/-- Insertion step of the model of `hnsw.Graph.Search`: insert a node
into a list kept sorted by distance to the query. -/
noncomputable def insertByDist (q : Vec) (n : String × Vec) :
    List (String × Vec) → List (String × Vec)
  | [] => [n]
  | m :: rest =>
      if cosineDistance q n.2 ≤ cosineDistance q m.2 then n :: m :: rest
      else m :: insertByDist q n rest

/-- All graph nodes sorted by distance to the query. -/
noncomputable def sortByDist (q : Vec) (ns : List (String × Vec)) :
    List (String × Vec) :=
  ns.foldr (insertByDist q) []

/-- Model of the external `coder/hnsw` `Graph.Search(q, k)`: up to `k`
nearest nodes by the graph's cosine-distance metric. -/
noncomputable def graphSearch (ns : List (String × Vec)) (q : Vec) (k : Nat) :
    List (String × Vec) :=
  (sortByDist q ns).take k

/-- The filtering loop of `HNSWSimilaritySearcher.Search`: for each
neighbor the code computes `sim := 1.0 - cosineSimilarity(q, node.Value)`
and keeps the node's entry when `sim >= threshold` and the id is in the
id-to-entry map. -/
noncomputable def searchFilter (q : Vec) (threshold : ℝ)
    (mm : List (String × MemoryEntry)) :
    List (String × Vec) → List MemoryEntry
  | [] => []
  | n :: rest =>
      if 1 - cosineSimilarity q n.2 ≥ threshold then
        match lookupAssoc n.1 mm with
        | some mem => mem :: searchFilter q threshold mm rest
        | none => searchFilter q threshold mm rest
      else searchFilter q threshold mm rest

/-- `HNSWSimilaritySearcher.Search`. -/
noncomputable def Search (query : Vec) (k : Nat) (threshold : ℝ)
    (h : HNSWSimilaritySearcher) : Except MemErr (List MemoryEntry) :=
  if query.length ≠ h.dim then .error .dimMismatch
  else .ok (searchFilter query threshold h.memMap (graphSearch h.nodes query k))

/-- `SearchMemories` (inmemory.go): embeds the query, calls
`Search(emb, 10, 0.1)`, returns `nil` (here `[]`) on any failure, and
clears the `Embedding` field of every returned entry. -/
noncomputable def SearchMemories (prov : EmbeddingProvider) (query : String)
    (s : Sys) : List MemoryEntry :=
  match prov query with
  | .error _ => []
  | .ok emb =>
      match Search emb 10 (0.1 : ℝ) s.sim with
      | .error _ => []
      | .ok results => results.map (fun m => { m with embedding := [] })

/-- `FilterRelatedMemories` (inmemory.go): per-candidate recall,
deduplicated by record id (the Go code accumulates a map keyed by id). -/
noncomputable def FilterRelatedMemories (prov : EmbeddingProvider)
    (newMems : List EasyMemory) (s : Sys) : List MemoryEntry :=
  let resultPairs := newMems.foldl (fun acc nm =>
    (SearchMemories prov nm.content s).foldl (fun acc2 mem =>
      match lookupAssoc mem.id acc2 with
      | some _ => acc2
      | none => acc2 ++ [(mem.id, mem)]) acc) []
  resultPairs.map Prod.snd

/-- Errors surfaced by the agent cycle (`Think` and its helpers); each
constructor wraps the underlying collaborator message, mirroring the Go
`fmt.Errorf("...: %w", err)` wrapping. -/
inductive AgentErr where
  | summarizeFailed (msg : String)
  | buildContextFailed (msg : String)
  | selectStaleFailed (msg : String)
  | respondFailed (msg : String)
deriving DecidableEq

/-- The LLM-backed collaborator operations used by `BaseAgent`
(agent.go), abstracting `PromptBuilder.Build` + `ModelClient` round
trips.  Each takes the hot context that the Go code feeds into the
prompt: `summarize hotCtx input`, `consolidate priorHot new old`,
`selectStale hotCtx old new`, `respond updatedContext userInput`. -/
structure Cognition where
  summarize : String → String → Except String (List EasyMemory)
  consolidate : String → List EasyMemory → List MemoryEntry → Except String String
  selectStale : String → List MemoryEntry → List EasyMemory → Except String (List String)
  respond : String → String → Except String String

/-- The combined input string built at the top of `Think` (agent.go). -/
def combinedInput (senderContext userInput : String) : String :=
  "Context of the sender:\n" ++ senderContext ++
    "\n\nThe query of the sender:\n" ++ userInput

/-- Go `fmt` `%v` rendering of a `context.EasyMemory` value. -/
def goFmtEasy (m : EasyMemory) : String :=
  "\x7b" ++ m.category ++ " " ++ m.content ++ " " ++
    toString m.importance ++ "\x7d"

/-- Go `fmt` `%v` rendering of a `[]context.EasyMemory` slice. -/
def goFmtEasyList (ms : List EasyMemory) : String :=
  "[" ++ String.intercalate " " (ms.map goFmtEasy) ++ "]"

/-- `BaseAgent.BuildContext` (agent.go): when the prior hot context is
empty and there are no old memories it renders
`fmt.Sprintf("Context:\n%v", newMemories)` without consulting the model;
otherwise it asks the model to merge. -/
def BuildContext (cog : Cognition) (newMemories : List EasyMemory)
    (oldMemories : List MemoryEntry) (s : Sys) : Except AgentErr String :=
  let priorHot := GetContext s
  if priorHot = "" ∧ oldMemories.length = 0 then
    .ok ("Context:\n" ++ goFmtEasyList newMemories)
  else
    match cog.consolidate priorHot newMemories oldMemories with
    | .error e => .error (.buildContextFailed e)
    | .ok merged => .ok merged

/-- `BaseAgent.RefreshMemories` (agent.go): asks the model which ids to
delete; on failure of that call it returns the error immediately (before
any `Forget` or `Remember`).  On success it forgets each listed id and
then remembers each new memory, logging and ignoring individual
failures. -/
def RefreshMemories (prov : EmbeddingProvider) (cog : Cognition) (now : Nat)
    (oldMems : List MemoryEntry) (newMems : List EasyMemory) (s : Sys) :
    Except AgentErr Unit × Sys :=
  match cog.selectStale (GetContext s) oldMems newMems with
  | .error e => (.error (.selectStaleFailed e), s)
  | .ok deleteIDs =>
      let s1 := deleteIDs.foldl (fun acc id => (Forget id acc).2) s
      let s2 := newMems.foldl (fun acc em => (Remember prov now em acc).2) s1
      (.ok (), s2)

/-- `BaseAgent.Think` (agent.go): summarize the combined input (fatal on
failure), recall related memories, build and set the new hot context
(fatal on failure), refresh memories (warning only), obtain the task
response (fatal on failure), then summarize the response (treated as no
memories on failure) and refresh a second time (warning only). -/
noncomputable def Think (prov : EmbeddingProvider) (cog : Cognition)
    (now : Nat) (senderContext userInput : String) (s : Sys) :
    Except AgentErr String × Sys :=
  match cog.summarize (GetContext s) (combinedInput senderContext userInput) with
  | .error e => (.error (.summarizeFailed e), s)
  | .ok newMemories =>
      let relevantOld := FilterRelatedMemories prov newMemories s
      match BuildContext cog newMemories relevantOld s with
      | .error e => (.error e, s)
      | .ok updatedContext =>
          let s1 := SetContext updatedContext s
          let s2 := (RefreshMemories prov cog now relevantOld newMemories s1).2
          match cog.respond updatedContext userInput with
          | .error e => (.error (.respondFailed e), s2)
          | .ok taskResponse =>
              let additional :=
                match cog.summarize (GetContext s2) taskResponse with
                | .error _ => ([] : List EasyMemory)
                | .ok ms => ms
              let relevantAdd := FilterRelatedMemories prov additional s2
              let s3 := (RefreshMemories prov cog now relevantAdd additional s2).2
              (.ok taskResponse, s3)

/-- The bidirectional cold-tier / index invariant of spec §3: every id
has as many cold-tier records as vector nodes (on reachable states both
counts are 0 or 1, so this is the one-to-one correspondence). -/
def InvariantHolds (s : Sys) : Prop :=
  ∀ id : String, countKey id s.store.coldStorage = countKey id s.sim.nodes

/-- Ghost discipline of the uuid source: every id handed out so far was
drawn from a position strictly below the current counter. -/
def UuidDiscipline (s : Sys) : Prop :=
  ∀ id ∈ s.store.usedIds, ∃ m, m < s.store.uuidCounter ∧ id = uuidGen m

/-- Character-list prefix test (structural, kernel-evaluable). -/
def charsPrefix : List Char → List Char → Bool
  | [], _ => true
  | _ :: _, [] => false
  | a :: as, b :: bs => a == b && charsPrefix as bs

/-- Character-list infix test (structural, kernel-evaluable). -/
def charsInfix (needle : List Char) : List Char → Bool
  | [] => needle.isEmpty
  | b :: bs => charsPrefix needle (b :: bs) || charsInfix needle bs

/-- Substring test used to state "contains the content verbatim". -/
def strContains (hay needle : String) : Bool :=
  charsInfix needle.data hay.data

theorem lookupAssoc_insertAssoc_self (id : String) (v : α)
    (l : List (String × α)) : lookupAssoc id (insertAssoc id v l) = some v := by
  induction l with
  | nil => simp [insertAssoc, lookupAssoc]
  | cons hd tl ih =>
      obtain ⟨k, w⟩ := hd
      by_cases h : k = id
      · simp [insertAssoc, h, lookupAssoc]
      · simp [insertAssoc, h, lookupAssoc, ih]

theorem lookupAssoc_eraseAssoc_self (id : String) (l : List (String × α)) :
    lookupAssoc id (eraseAssoc id l) = none := by
  induction l with
  | nil => simp [eraseAssoc, lookupAssoc]
  | cons hd tl ih =>
      obtain ⟨k, w⟩ := hd
      by_cases h : k = id
      · simp [eraseAssoc, h, ih]
      · simp [eraseAssoc, h, lookupAssoc, ih]

theorem countKey_eraseAssoc_self (id : String) (l : List (String × α)) :
    countKey id (eraseAssoc id l) = 0 := by
  induction l with
  | nil => simp [eraseAssoc, countKey]
  | cons hd tl ih =>
      obtain ⟨k, w⟩ := hd
      by_cases h : k = id
      · simp [eraseAssoc, h, ih]
      · simp [eraseAssoc, h, countKey, ih]

theorem countKey_pos_iff_lookupAssoc_isSome (id : String)
    (l : List (String × α)) :
    0 < countKey id l ↔ (lookupAssoc id l).isSome = true := by
  induction l with
  | nil => simp [countKey, lookupAssoc]
  | cons hd tl ih =>
      obtain ⟨k, w⟩ := hd
      by_cases h : k = id
      · simp [countKey, lookupAssoc, h]
      · simp [countKey, lookupAssoc, h, ih]

theorem countKey_insertAssoc_present (id k : String) (v : α)
    (l : List (String × α)) (h : (lookupAssoc id l).isSome = true) :
    countKey k (insertAssoc id v l) = countKey k l := by
  induction l with
  | nil => simp [lookupAssoc] at h
  | cons hd tl ih =>
      obtain ⟨k', w⟩ := hd
      by_cases hk : k' = id
      · subst hk
        simp [insertAssoc, countKey]
      · simp [lookupAssoc, hk] at h
        simp [insertAssoc, hk, countKey, ih h]

theorem countKey_insertAssoc_absent (id k : String) (v : α)
    (l : List (String × α)) (h : lookupAssoc id l = none) :
    countKey k (insertAssoc id v l) =
      countKey k l + (if k = id then 1 else 0) := by
  induction l with
  | nil =>
      by_cases hk : k = id
      · simp [insertAssoc, countKey, hk]
      · have hk' : ¬ id = k := fun hh => hk hh.symm
        simp [insertAssoc, countKey, hk, hk']
  | cons hd tl ih =>
      obtain ⟨k', w⟩ := hd
      by_cases hk : k' = id
      · simp [lookupAssoc, hk] at h
      · simp [lookupAssoc, hk] at h
        simp [insertAssoc, hk, countKey, ih h]
        omega

theorem uuidGen_inj (n m : Nat) (h : uuidGen n = uuidGen m) : n = m := by
  have hlen : (uuidGen n).length = (uuidGen m).length := by rw [h]
  simpa [uuidGen, String.length] using hlen

theorem Forget_sim_eq (id : String) (s : Sys) : ((Forget id s).2).sim = s.sim := by
  unfold Forget
  split <;> rfl

theorem Forget_rememberCalls (id : String) (s : Sys) :
    ((Forget id s).2).store.rememberCalls = s.store.rememberCalls := by
  unfold Forget
  split <;> rfl

theorem Forget_hotContext (id : String) (s : Sys) :
    ((Forget id s).2).store.hotContext = s.store.hotContext := by
  unfold Forget
  split <;> rfl

theorem Remember_rememberCalls (prov : EmbeddingProvider) (now : Nat)
    (em : EasyMemory) (s : Sys) :
    ((Remember prov now em s).2).store.rememberCalls =
      s.store.rememberCalls + 1 := by
  unfold Remember
  split
  · rfl
  · dsimp only
    split <;> rfl

theorem Remember_hotContext (prov : EmbeddingProvider) (now : Nat)
    (em : EasyMemory) (s : Sys) :
    ((Remember prov now em s).2).store.hotContext = s.store.hotContext := by
  unfold Remember
  split
  · rfl
  · dsimp only
    split <;> rfl

theorem foldl_Forget_rememberCalls (ids : List String) (s : Sys) :
    ((ids.foldl (fun acc id => (Forget id acc).2) s)).store.rememberCalls =
      s.store.rememberCalls := by
  induction ids generalizing s with
  | nil => rfl
  | cons x xs ih => rw [List.foldl_cons, ih, Forget_rememberCalls]

theorem foldl_Remember_rememberCalls (prov : EmbeddingProvider) (now : Nat)
    (ems : List EasyMemory) (s : Sys) :
    ((ems.foldl (fun acc em => (Remember prov now em acc).2) s)).store.rememberCalls =
      s.store.rememberCalls + ems.length := by
  induction ems generalizing s with
  | nil => simp
  | cons x xs ih =>
      rw [List.foldl_cons, ih, Remember_rememberCalls]
      simp only [List.length_cons]
      omega

theorem cos_e1_e1 : cosineSimilarity [(1:ℝ), 0] [(1:ℝ), 0] = 1 := by
  norm_num [cosineSimilarity, dotProd, Real.sqrt_one]

theorem cos_e1_e2 : cosineSimilarity [(1:ℝ), 0] [(0:ℝ), 1] = 0 := by
  norm_num [cosineSimilarity, dotProd]

/-- Concrete deterministic provider mapping every text to `[1, 0]`. -/
def provU : EmbeddingProvider := fun _ => .ok [(1:ℝ), 0]

/-- Concrete candidate memory. -/
def emHello : EasyMemory := { category := "c", content := "hello", importance := 1 }

/-- The store after committing `emHello` on a fresh dimension-2 system;
the assigned id is `uuidGen 0 = "u"`. -/
def sysOne : Sys := (Remember provU 0 emHello (initSys 2)).2

/-- C8: `Delete(id)` (`Forget`) removes the record with that id from the
cold map and fails with `NotFoundError` if and only if `id` is absent;
in particular a successful delete followed by a second delete of the
same id yields `NotFoundError` on the second call. -/
theorem forget_notFound_iff_and_double_delete (s : Sys) (id : String) :
    ((Forget id s).1 = .error (.notFound id) ↔ MemoryExists id s = false) ∧
    (MemoryExists id s = true →
      (Forget id s).1 = .ok () ∧
      MemoryExists id (Forget id s).2 = false ∧
      (Forget id (Forget id s).2).1 = .error (.notFound id)) := by
  cases hl : lookupAssoc id s.store.coldStorage with
  | none => simp [Forget, hl, MemoryExists]
  | some v =>
      simp [Forget, hl, MemoryExists, lookupAssoc_eraseAssoc_self]

/-- Witness for C8 at a concrete store holding one record. -/
theorem forget_notFound_iff_and_double_delete_witness :
    MemoryExists "u" sysOne = true ∧
    (Forget "u" sysOne).1 = .ok () ∧
    MemoryExists "u" (Forget "u" sysOne).2 = false ∧
    (Forget "u" (Forget "u" sysOne).2).1 = .error (.notFound "u") := by
  have h := (forget_notFound_iff_and_double_delete sysOne "u").2 rfl
  exact ⟨rfl, h.1, h.2.1, h.2.2⟩

/-- C7: `Recall` (`SearchMemories`) is best-effort and never errors: its
return type carries no error, and both failure modes — the embedding
provider failing, or the similarity index rejecting the query (dimension
mismatch) — yield the empty result slice. -/
theorem searchMemories_best_effort :
    (∀ (prov : EmbeddingProvider) (q : String) (s : Sys) (e : String),
        prov q = .error e → SearchMemories prov q s = []) ∧
    (∀ (prov : EmbeddingProvider) (q : String) (s : Sys) (emb : Vec),
        prov q = .ok emb → emb.length ≠ s.sim.dim →
        SearchMemories prov q s = []) := by
  constructor
  · intro prov q s e h
    simp [SearchMemories, h]
  · intro prov q s emb h hd
    simp only [SearchMemories, h]
    rw [Search, if_pos hd]

/-- Concrete provider whose backend is down. -/
def provFail : EmbeddingProvider := fun _ => .error "provider down"

/-- Concrete provider returning vectors of the wrong dimension (3) for a
dimension-2 index. -/
def provDim3 : EmbeddingProvider := fun _ => .ok [(1:ℝ), 0, 0]

/-- Witness for C7: both failure modes on concrete inputs. -/
theorem searchMemories_best_effort_witness :
    provFail "q" = .error "provider down" ∧
    SearchMemories provFail "q" (initSys 2) = [] ∧
    SearchMemories provDim3 "q" (initSys 2) = [] := by
  refine ⟨rfl, searchMemories_best_effort.1 provFail "q" (initSys 2) "provider down" rfl,
    searchMemories_best_effort.2 provDim3 "q" (initSys 2) [(1:ℝ), 0, 0] rfl (by simp [initSys])⟩

theorem searchFilter_length_le (q : Vec) (t : ℝ)
    (mm : List (String × MemoryEntry)) (ns : List (String × Vec)) :
    (searchFilter q t mm ns).length ≤ ns.length := by
  induction ns with
  | nil => simp [searchFilter]
  | cons n rest ih =>
      simp only [searchFilter]
      split
      · split
        · simpa using ih
        · exact ih.trans (by simp)
      · exact ih.trans (by simp)

/-- C10: `SearchMemories` always asks the index for at most `k = 10`
neighbors with the fixed threshold `0.1` (it accepts no caller-supplied
parameters), so every query returns at most 10 memory records. -/
theorem searchMemories_at_most_ten (prov : EmbeddingProvider) (q : String)
    (s : Sys) : (SearchMemories prov q s).length ≤ 10 := by
  unfold SearchMemories
  cases hp : prov q with
  | error e => simp
  | ok emb =>
      dsimp only
      unfold Search
      by_cases hd : emb.length ≠ s.sim.dim
      · rw [if_pos hd]
        simp
      · rw [if_neg hd]
        simp only [List.length_map]
        refine (searchFilter_length_le _ _ _ _).trans ?_
        unfold graphSearch
        exact (List.length_take_le _ _)

/-- C9: when the summarize step at the top of the cycle (`Think`) fails,
the cycle aborts, the underlying error is propagated (wrapped as
`summarizeFailed`), and the state is returned exactly as it was: neither
the hot context nor the cold tier is touched. -/
theorem think_summarize_failure_aborts_untouched
    (prov : EmbeddingProvider) (cog : Cognition) (now : Nat)
    (senderContext userInput : String) (s : Sys) (e : String)
    (h : cog.summarize (GetContext s) (combinedInput senderContext userInput) =
          .error e) :
    Think prov cog now senderContext userInput s =
      (.error (.summarizeFailed e), s) := by
  unfold Think
  rw [h]

/-- Concrete cognition stub whose summarize step fails. -/
def cogSummFail : Cognition :=
  { summarize := fun _ _ => .error "model down",
    consolidate := fun _ _ _ => .ok "merged",
    selectStale := fun _ _ _ => .ok [],
    respond := fun _ _ => .ok "resp" }

/-- Witness for C9 on a fresh store. -/
theorem think_summarize_failure_aborts_untouched_witness :
    cogSummFail.summarize (GetContext (initSys 2)) (combinedInput "sc" "ui") =
        .error "model down" ∧
    Think provU cogSummFail 0 "sc" "ui" (initSys 2) =
      (.error (.summarizeFailed "model down"), initSys 2) := by
  exact ⟨rfl, think_summarize_failure_aborts_untouched provU cogSummFail 0
    "sc" "ui" (initSys 2) "model down" rfl⟩

theorem Remember_ok_shape (prov : EmbeddingProvider) (now : Nat)
    (em : EasyMemory) (s : Sys)
    (hok : (Remember prov now em s).1 = .ok ()) :
    ∃ emb, prov em.content = .ok emb ∧ emb.length = s.sim.dim ∧
      (Remember prov now em s).2 =
        ⟨⟨s.store.hotContext,
          insertAssoc (uuidGen s.store.uuidCounter)
            ⟨uuidGen s.store.uuidCounter, em.category, em.content, now,
             em.importance, emb⟩ s.store.coldStorage,
          s.store.uuidCounter + 1,
          s.store.usedIds ++ [uuidGen s.store.uuidCounter],
          s.store.rememberCalls + 1⟩,
         ⟨insertAssoc (uuidGen s.store.uuidCounter) emb s.sim.nodes,
          insertAssoc (uuidGen s.store.uuidCounter)
            ⟨uuidGen s.store.uuidCounter, em.category, em.content, now,
             em.importance, emb⟩ s.sim.memMap,
          s.sim.dim⟩⟩ := by
  unfold Remember at hok ⊢
  cases hp : prov em.content with
  | error e =>
      rw [hp] at hok
      simp at hok
  | ok emb =>
      rw [hp] at hok
      unfold IndexMemory at hok ⊢
      dsimp only at hok ⊢
      by_cases hd : emb.length ≠ s.sim.dim
      · rw [if_pos hd] at hok
        simp at hok
      · rw [if_neg hd] at hok ⊢
        refine ⟨emb, rfl, by omega, rfl⟩

/-- C4: under the uuid-source discipline (which holds initially and is
preserved by every operation), a successful `Commit` (`Remember`)
assigns an id never handed out by any earlier `Remember` call on the
same store, stores the record under that id with the current timestamp
`now`, and `MemoryExists` reports the id immediately afterwards; the
discipline is re-established so the guarantee carries along any run. -/
theorem remember_fresh_id_timestamp_exists
    (prov : EmbeddingProvider) (now : Nat) (em : EasyMemory) (s : Sys)
    (hwf : UuidDiscipline s)
    (hok : (Remember prov now em s).1 = .ok ()) :
    uuidGen s.store.uuidCounter ∉ s.store.usedIds ∧
    MemoryExists (uuidGen s.store.uuidCounter) (Remember prov now em s).2 = true ∧
    (∃ emb, prov em.content = .ok emb ∧
      lookupAssoc (uuidGen s.store.uuidCounter)
          ((Remember prov now em s).2).store.coldStorage =
        some ⟨uuidGen s.store.uuidCounter, em.category, em.content, now,
              em.importance, emb⟩) ∧
    UuidDiscipline (Remember prov now em s).2 := by
  obtain ⟨emb, hp, hdim, hshape⟩ := Remember_ok_shape prov now em s hok
  refine ⟨?_, ?_, ⟨emb, hp, ?_⟩, ?_⟩
  · intro hmem
    obtain ⟨m, hm, he⟩ := hwf _ hmem
    have := uuidGen_inj _ _ he
    omega
  · rw [hshape]
    unfold MemoryExists
    dsimp only
    rw [lookupAssoc_insertAssoc_self]
    rfl
  · rw [hshape]
    dsimp only
    exact lookupAssoc_insertAssoc_self _ _ _
  · rw [hshape]
    intro id' hid'
    dsimp only at hid' ⊢
    rcases List.mem_append.1 hid' with h | h
    · obtain ⟨m, hm, he⟩ := hwf _ h
      exact ⟨m, by omega, he⟩
    · refine ⟨s.store.uuidCounter, by omega, ?_⟩
      simpa using h

/-- Witness for C4: committing on a fresh store assigns id `"u"`, which
then exists with timestamp 0. -/
theorem remember_fresh_id_timestamp_exists_witness :
    UuidDiscipline (initSys 2) ∧
    (Remember provU 0 emHello (initSys 2)).1 = .ok () ∧
    uuidGen 0 ∉ (initSys 2).store.usedIds ∧
    MemoryExists (uuidGen 0) sysOne = true := by
  have hwf : UuidDiscipline (initSys 2) :=
    fun id h => absurd h (List.not_mem_nil _)
  have h := remember_fresh_id_timestamp_exists provU 0 emHello (initSys 2) hwf rfl
  exact ⟨hwf, rfl, h.1, h.2.1⟩

theorem countKey_eq_zero_iff_lookupAssoc_none (id : String)
    (l : List (String × α)) :
    countKey id l = 0 ↔ lookupAssoc id l = none := by
  have h := countKey_pos_iff_lookupAssoc_isSome id l
  constructor
  · intro h0
    cases hl : lookupAssoc id l with
    | none => rfl
    | some v =>
        have hpos := h.2 (by simp [hl])
        omega
  · intro hl
    by_contra hne
    have hpos : 0 < countKey id l := Nat.pos_of_ne_zero hne
    have := h.1 hpos
    simp [hl] at this

theorem Remember_preserves_invariant (prov : EmbeddingProvider) (now : Nat)
    (em : EasyMemory) (s : Sys) (hinv : InvariantHolds s)
    (hok : (Remember prov now em s).1 = .ok ()) :
    InvariantHolds (Remember prov now em s).2 := by
  obtain ⟨emb, hp, hdim, hshape⟩ := Remember_ok_shape prov now em s hok
  rw [hshape]
  intro id
  dsimp only
  by_cases hpres : 0 < countKey (uuidGen s.store.uuidCounter) s.store.coldStorage
  · have hsome_cold := (countKey_pos_iff_lookupAssoc_isSome _ _).1 hpres
    have hpres_nodes : 0 < countKey (uuidGen s.store.uuidCounter) s.sim.nodes := by
      rw [← hinv (uuidGen s.store.uuidCounter)]
      exact hpres
    have hsome_nodes := (countKey_pos_iff_lookupAssoc_isSome _ _).1 hpres_nodes
    rw [countKey_insertAssoc_present _ _ _ _ hsome_cold,
        countKey_insertAssoc_present _ _ _ _ hsome_nodes]
    exact hinv id
  · have hz_cold : countKey (uuidGen s.store.uuidCounter) s.store.coldStorage = 0 := by
      omega
    have hz_nodes : countKey (uuidGen s.store.uuidCounter) s.sim.nodes = 0 := by
      rw [← hinv (uuidGen s.store.uuidCounter)]
      exact hz_cold
    have hnone_cold := (countKey_eq_zero_iff_lookupAssoc_none _ _).1 hz_cold
    have hnone_nodes := (countKey_eq_zero_iff_lookupAssoc_none _ _).1 hz_nodes
    rw [countKey_insertAssoc_absent _ _ _ _ hnone_cold,
        countKey_insertAssoc_absent _ _ _ _ hnone_nodes, hinv id]

theorem Forget_breaks_invariant (id : String) (s : Sys)
    (hinv : InvariantHolds s) (hex : MemoryExists id s = true) :
    (Forget id s).1 = .ok () ∧ ((Forget id s).2).sim = s.sim ∧
    countKey id ((Forget id s).2).store.coldStorage = 0 ∧
    0 < countKey id ((Forget id s).2).sim.nodes ∧
    ¬ InvariantHolds (Forget id s).2 := by
  unfold MemoryExists at hex
  cases hl : lookupAssoc id s.store.coldStorage with
  | none => rw [hl] at hex; simp at hex
  | some v =>
      have hpos : 0 < countKey id s.store.coldStorage :=
        (countKey_pos_iff_lookupAssoc_isSome _ _).2 (by simp [hl])
      have hpos_nodes : 0 < countKey id s.sim.nodes := by
        rw [← hinv id]
        exact hpos
      unfold Forget
      rw [hl]
      refine ⟨rfl, rfl, countKey_eraseAssoc_self id _, hpos_nodes, ?_⟩
      intro hinv2
      have h2 := hinv2 id
      dsimp only at h2
      rw [countKey_eraseAssoc_self id _] at h2
      omega

/-- C1 counterexample: on a fresh store, commit one record (id `"u"`)
and then successfully delete it.  The delete removes the cold-tier
record but leaves the vector node in the similarity index, so the
bidirectional invariant does not hold after the committed `Delete`. -/
theorem delete_leaves_index_vector_cex :
    (Forget "u" sysOne).1 = .ok () ∧
    countKey "u" ((Forget "u" sysOne).2).store.coldStorage = 0 ∧
    countKey "u" ((Forget "u" sysOne).2).sim.nodes = 1 ∧
    ¬ InvariantHolds (Forget "u" sysOne).2 := by
  refine ⟨rfl, rfl, rfl, ?_⟩
  intro h
  exact absurd (h "u") (by decide)

/-- C1 (amended): a successful `Commit` (`Remember`) preserves the
bidirectional cold-tier/index invariant, but `Delete` (`Forget`)
removes the record only from the cold map and leaves the similarity
index untouched, so a successful delete of an indexed record always
breaks the invariant: the id's vector node survives in the index. -/
theorem commit_preserves_delete_breaks_invariant :
    (∀ (prov : EmbeddingProvider) (now : Nat) (em : EasyMemory) (s : Sys),
        InvariantHolds s → (Remember prov now em s).1 = .ok () →
        InvariantHolds (Remember prov now em s).2) ∧
    (∀ (id : String) (s : Sys),
        InvariantHolds s → MemoryExists id s = true →
        (Forget id s).1 = .ok () ∧ ((Forget id s).2).sim = s.sim ∧
        0 < countKey id ((Forget id s).2).sim.nodes ∧
        ¬ InvariantHolds (Forget id s).2) := by
  constructor
  · exact Remember_preserves_invariant
  · intro id s hinv hex
    have h := Forget_breaks_invariant id s hinv hex
    exact ⟨h.1, h.2.1, h.2.2.2.1, h.2.2.2.2⟩

/-- Witness for C1 (amended) on the concrete one-record store. -/
theorem commit_preserves_delete_breaks_invariant_witness :
    InvariantHolds sysOne ∧
    MemoryExists "u" sysOne = true ∧
    (Forget "u" sysOne).1 = .ok () ∧
    ¬ InvariantHolds (Forget "u" sysOne).2 := by
  have hinv : InvariantHolds sysOne :=
    commit_preserves_delete_breaks_invariant.1 provU 0 emHello (initSys 2)
      (fun _ => rfl) rfl
  have h := commit_preserves_delete_breaks_invariant.2 "u" sysOne hinv rfl
  exact ⟨hinv, rfl, h.1, h.2.2.2⟩

/-- The candidate memory of the spec's end-to-end scenario. -/
def candHex : EasyMemory :=
  { category := "Architecture", content := "uses hexagonal layering",
    importance := 5 }

/-- Cognition stub whose stale-selection call always fails while every
other operation succeeds. -/
def cogStaleFail : Cognition :=
  { summarize := fun _ _ => .ok [candHex],
    consolidate := fun _ _ _ => .ok "merged",
    selectStale := fun _ _ _ => .error "parse failure",
    respond := fun _ _ => .ok "resp" }

/-- C3 counterexample: with a summarize step producing one candidate, a
working provider and index, and a failing stale-selection call, the
cycle (`Think`) still reports success, but `Remember` is never invoked
and the cold tier stays empty — the SelectStale failure does prevent the
candidates from being committed. -/
theorem selectStale_failure_blocks_commits_cex :
    (Think provU cogStaleFail 0 "sc" "ui" (initSys 2)).1 = .ok "resp" ∧
    ((Think provU cogStaleFail 0 "sc" "ui" (initSys 2)).2).store.rememberCalls = 0 ∧
    ((Think provU cogStaleFail 0 "sc" "ui" (initSys 2)).2).store.coldStorage = [] := by
  exact ⟨rfl, rfl, rfl⟩

/-- C3 (amended): a failing SelectStale call makes `RefreshMemories`
return the wrapped error before any `Forget` or `Remember`, leaving the
store unchanged — so no candidate is committed in that pass; the
enclosing cycle (`Think`) only logs this and still succeeds.  When
SelectStale succeeds, `Remember` is invoked once per candidate, an
individual commit failure not blocking the rest. -/
theorem selectStale_failure_aborts_refresh_commits_otherwise :
    (∀ (prov : EmbeddingProvider) (cog : Cognition) (now : Nat)
        (oldMems : List MemoryEntry) (newMems : List EasyMemory)
        (s : Sys) (e : String),
        cog.selectStale (GetContext s) oldMems newMems = .error e →
        RefreshMemories prov cog now oldMems newMems s =
          (.error (.selectStaleFailed e), s)) ∧
    (∀ (prov : EmbeddingProvider) (cog : Cognition) (now : Nat)
        (oldMems : List MemoryEntry) (newMems : List EasyMemory)
        (s : Sys) (ids : List String),
        cog.selectStale (GetContext s) oldMems newMems = .ok ids →
        ((RefreshMemories prov cog now oldMems newMems s).2).store.rememberCalls =
          s.store.rememberCalls + newMems.length) ∧
    (∀ (prov : EmbeddingProvider) (cog : Cognition) (now : Nat)
        (senderContext userInput : String) (s : Sys)
        (ms : List EasyMemory) (upd r : String),
        cog.summarize (GetContext s) (combinedInput senderContext userInput) = .ok ms →
        BuildContext cog ms (FilterRelatedMemories prov ms s) s = .ok upd →
        cog.respond upd userInput = .ok r →
        (Think prov cog now senderContext userInput s).1 = .ok r) := by
  refine ⟨?_, ?_, ?_⟩
  · intro prov cog now oldMems newMems s e h
    unfold RefreshMemories
    rw [h]
  · intro prov cog now oldMems newMems s ids h
    unfold RefreshMemories
    rw [h]
    dsimp only
    rw [foldl_Remember_rememberCalls, foldl_Forget_rememberCalls]
  · intro prov cog now senderContext userInput s ms upd r h1 h2 h3
    unfold Think
    rw [h1]
    dsimp only
    rw [h2]
    dsimp only
    rw [h3]

/-- Cognition stub with a succeeding stale-selection step. -/
def cogStaleOk : Cognition :=
  { summarize := fun _ _ => .ok [candHex],
    consolidate := fun _ _ _ => .ok "merged",
    selectStale := fun _ _ _ => .ok [],
    respond := fun _ _ => .ok "resp" }

/-- Witness for C3 (amended): the failing stale-selection leaves the
fresh store untouched, a succeeding one commits both candidates, and a
cycle with a failing stale-selection still returns the task response. -/
theorem selectStale_failure_aborts_refresh_commits_otherwise_witness :
    RefreshMemories provU cogStaleFail 0 [] [candHex] (initSys 2) =
      (.error (.selectStaleFailed "parse failure"), initSys 2) ∧
    ((RefreshMemories provU cogStaleOk 0 [] [candHex, candHex] (initSys 2)).2).store.rememberCalls = 2 ∧
    (Think provU cogStaleFail 0 "sc" "ui" (initSys 2)).1 = .ok "resp" := by
  refine ⟨selectStale_failure_aborts_refresh_commits_otherwise.1 provU
      cogStaleFail 0 [] [candHex] (initSys 2) "parse failure" rfl, ?_, ?_⟩
  · have h := selectStale_failure_aborts_refresh_commits_otherwise.2.1 provU
      cogStaleOk 0 [] [candHex, candHex] (initSys 2) [] rfl
    simpa using h
  · exact selectStale_failure_aborts_refresh_commits_otherwise.2.2 provU
      cogStaleFail 0 "sc" "ui" (initSys 2) [candHex]
      "Context:\n[{Architecture uses hexagonal layering 5}]" "resp" rfl rfl rfl

/-- Cognition stub for the end-to-end C5 scenario: summarizing the
observation yields the single hexagonal-architecture candidate, any
other summarize call yields no memories, stale selection selects
nothing, and the consolidate operation fails — so a successful run
proves the consolidate call was skipped. -/
def cogHex : Cognition :=
  { summarize := fun _ inp =>
      if inp = combinedInput "sc" "we migrated to hexagonal architecture" then
        .ok [candHex]
      else .ok ([] : List EasyMemory),
    consolidate := fun _ _ _ => .error "consolidate must not be called",
    selectStale := fun _ _ _ => .ok [],
    respond := fun _ _ => .ok "done" }

/-- C5: with no prior hot context and no related old memories,
`BuildContext` skips the Cognition consolidate call (the result holds
for every cognition, including one whose consolidate fails) and
deterministically renders the candidates; end-to-end, a cycle on a
fresh store with one candidate leaves a hot context containing the
candidate's content verbatim and exactly one cold-tier record. -/
theorem skip_consolidate_and_end_to_end :
    (∀ (cog : Cognition) (newMems : List EasyMemory) (s : Sys),
        GetContext s = "" →
        BuildContext cog newMems [] s =
          .ok ("Context:\n" ++ goFmtEasyList newMems)) ∧
    ((Think provU cogHex 0 "sc" "we migrated to hexagonal architecture"
        (initSys 2)).1 = .ok "done" ∧
     GetContext (Think provU cogHex 0 "sc"
        "we migrated to hexagonal architecture" (initSys 2)).2 =
       "Context:\n[{Architecture uses hexagonal layering 5}]" ∧
     strContains (GetContext (Think provU cogHex 0 "sc"
        "we migrated to hexagonal architecture" (initSys 2)).2)
       "uses hexagonal layering" = true ∧
     ((Think provU cogHex 0 "sc" "we migrated to hexagonal architecture"
        (initSys 2)).2).store.coldStorage.length = 1) := by
  constructor
  · intro cog newMems s h
    unfold BuildContext
    rw [if_pos ⟨h, by simp⟩]
  · refine ⟨rfl, rfl, by decide, rfl⟩

/-- Witness for C5's hypothesis-bearing part at a concrete input. -/
theorem skip_consolidate_and_end_to_end_witness :
    GetContext (initSys 2) = "" ∧
    BuildContext cogHex [candHex] [] (initSys 2) =
      .ok ("Context:\n" ++ goFmtEasyList [candHex]) := by
  exact ⟨rfl, skip_consolidate_and_end_to_end.1 cogHex [candHex] (initSys 2) rfl⟩

/-- C6 (evaluation of the code bug at the failing input): with the
deterministic provider mapping every text to `[1, 0]`, committing a
record with content "hello" succeeds and the record exists, the query
"hello" has exact cosine similarity 1 to the stored vector, yet
`SearchMemories "hello"` returns the empty list: the filter keeps a
neighbor only when `1 - cosineSimilarity >= 0.1`, which excludes the
identical vector, contradicting the function's own documentation. -/
theorem committed_record_not_recalled_cex :
    (Remember provU 0 emHello (initSys 2)).1 = .ok () ∧
    MemoryExists "u" sysOne = true ∧
    cosineSimilarity [(1:ℝ), 0] [(1:ℝ), 0] = 1 ∧
    SearchMemories provU "hello" sysOne = [] := by
  refine ⟨rfl, rfl, cos_e1_e1, ?_⟩
  norm_num [SearchMemories, Search, graphSearch, sortByDist, insertByDist,
    searchFilter, sysOne, Remember, IndexMemory, initSys, insertAssoc,
    provU, emHello, cos_e1_e1]

/-- Deterministic provider for the two-record scenario: content "ca"
maps to `[1, 0]`, content "cb" to `[0, 1]`, every query to `[1, 0]`. -/
def provAB : EmbeddingProvider := fun t =>
  if t = "ca" then .ok [(1:ℝ), 0]
  else if t = "cb" then .ok [(0:ℝ), 1]
  else .ok [(1:ℝ), 0]

/-- Candidate whose committed vector equals the query vector. -/
def emA : EasyMemory := { category := "cat", content := "ca", importance := 1 }

/-- Candidate whose committed vector is orthogonal to the query. -/
def emB : EasyMemory := { category := "cat", content := "cb", importance := 1 }

/-- Store holding the two committed records (ids `"u"` and `"uu"`). -/
def sysAB : Sys :=
  (Remember provAB 1 emB (Remember provAB 0 emA (initSys 2)).2).2

/-- C2 (evaluation of the code bug at the failing input): record "cb"
has exact cosine similarity 0 to the query — strictly below the fixed
threshold 0.1 used by `SearchMemories` — while record "ca" has
similarity 1; yet the recall returns exactly the dissimilar record
(with its embedding cleared) and drops the identical one, because the
filter keeps a neighbor when `1 - cosineSimilarity >= threshold`
instead of `cosineSimilarity >= threshold` as its documentation
states. -/
theorem recall_returns_dissimilar_drops_similar_cex :
    cosineSimilarity [(1:ℝ), 0] [(0:ℝ), 1] = 0 ∧
    cosineSimilarity [(1:ℝ), 0] [(1:ℝ), 0] = 1 ∧
    MemoryExists "u" sysAB = true ∧ MemoryExists "uu" sysAB = true ∧
    SearchMemories provAB "q" sysAB =
      [{ id := "uu", category := "cat", content := "cb", timestamp := 1,
         importance := 1, embedding := [] }] := by
  refine ⟨cos_e1_e2, cos_e1_e1, rfl, rfl, ?_⟩
  have hAB : sysAB =
      ⟨⟨"", [("u", ⟨"u", "cat", "ca", 0, 1, [(1:ℝ), 0]⟩),
             ("uu", ⟨"uu", "cat", "cb", 1, 1, [(0:ℝ), 1]⟩)], 2,
        ["u", "uu"], 2⟩,
       ⟨[("u", [(1:ℝ), 0]), ("uu", [(0:ℝ), 1])],
        [("u", ⟨"u", "cat", "ca", 0, 1, [(1:ℝ), 0]⟩),
         ("uu", ⟨"uu", "cat", "cb", 1, 1, [(0:ℝ), 1]⟩)], 2⟩⟩ := rfl
  rw [hAB]
  unfold SearchMemories
  rw [show provAB "q" = Except.ok [(1:ℝ), 0] from rfl]
  norm_num [Search, graphSearch, sortByDist, insertByDist,
    searchFilter, lookupAssoc, cosineDistance, cos_e1_e1, cos_e1_e2]
  have hne : ¬ ("u" : String) = "uu" := by decide
  simp [hne]
